import Mathlib

/-!
Verification development for the EdgeFlow proxy repository.

The definitions below are a shallow embedding of the proxy core:
`src/api/proxy/route.ts` (the `POST` handler, the `ScramjetEngine` class and
`isCacheableResponse`) and `src/public/sw.js` (`handleProxyRequest`).
Platform collaborators (the WHATWG `URL` constructor, `RegExp`, `fetch`,
`TextDecoder`, `encodeURIComponent`, number-to-string conversion, the Edge
Config store, the SQL cache store and the service-worker `caches` API) are
modelled explicitly; each model's doc comment states its restrictions.
-/

namespace EdgeFlow

/-- Model of JavaScript `haystack.includes(needle)` on lists of characters:
`containsSub s sub` is true when `sub` occurs as a contiguous run inside `s`
(every string contains the empty string). -/
def containsSub (s sub : List Char) : Bool :=
  match s with
  | [] => sub.isEmpty
  | c :: rest => sub.isPrefixOf (c :: rest) || containsSub rest sub

/-- Model of JavaScript `String.prototype.includes` on strings. -/
def jsIncludes (s sub : String) : Bool :=
  containsSub s.data sub.data

/-- Replace every occurrence of `pat` in a character list by `repl`, left to
right and non-overlapping, structured with explicit fuel (each step consumes
one unit and at least one character, so fuel equal to the list's length
suffices; the fuel-exhausted branch is unreachable then). -/
def replaceAllGo (pat repl : List Char) : Nat → List Char → List Char
  | _, [] => []
  | 0, s => s
  | fuel + 1, c :: rest =>
    if 0 < pat.length ∧ pat.isPrefixOf (c :: rest) then
      repl ++ replaceAllGo pat repl fuel (List.drop (pat.length - 1) rest)
    else
      c :: replaceAllGo pat repl fuel rest

/-- String-level global replace, the model of the JavaScript call
`str.replace(new RegExp(pattern, 'g'), replacement)` for a literal
(metacharacter-free) pattern, with the replacement taken literally
(`$`-sequences are not modelled). An empty pattern leaves the string
unchanged in this model (JavaScript's empty-pattern corner case of inserting
the replacement at every position is not modelled; no claim depends on it). -/
def jsReplaceAll (s pat repl : String) : String :=
  String.mk (replaceAllGo pat.data repl.data s.data.length s.data)

/-- Helper for the pattern-validity model: parenthesis balance check. -/
def parensBalanced : List Char → Nat → Bool
  | [], depth => depth == 0
  | c :: rest, depth =>
    if c == '(' then parensBalanced rest (depth + 1)
    else if c == ')' then
      match depth with
      | 0 => false
      | d + 1 => parensBalanced rest d
    else parensBalanced rest depth

/-- Model of the syntactic validity check performed by `new RegExp(pattern)`:
the constructor throws a `SyntaxError` on an ill-formed pattern. The model
restricts attention to one representative ill-formedness, unbalanced group
parentheses (JavaScript rejects e.g. the pattern `(`), and treats every
parenthesis-balanced pattern as valid. -/
def regexPatternValid (p : String) : Bool :=
  parensBalanced p.data 0

/-- The error raised by `new RegExp` on an invalid pattern. -/
inductive RegexError where
  | syntaxError
deriving DecidableEq

/-- A transformation rule, from the `TransformRule` interface of
`src/api/proxy/route.ts` (the `type` field holds `"url"`, `"header"` or
`"content"`). -/
structure TransformRule where
  pattern : String
  replacement : String
  type : String
deriving DecidableEq

/-- The proxy configuration, from the `ProxyConfig` interface of
`src/api/proxy/route.ts`. -/
structure ProxyConfig where
  enabled : Bool
  cacheTTL : Nat
  maxContentLength : Nat
  allowedDomains : List String
  blockedDomains : List String
  transformRules : List TransformRule
deriving DecidableEq

/-- The hardcoded default configuration `DEFAULT_CONFIG` of
`src/api/proxy/route.ts`. -/
def DEFAULT_CONFIG : ProxyConfig :=
  { enabled := true
    cacheTTL := 3600
    maxContentLength := 10 * 1024 * 1024
    allowedDomains := []
    blockedDomains := []
    transformRules := [] }

/-- The `censoredDomains` constant of `ScramjetEngine.shouldApplyDomainFronting`. -/
def censoredDomains : List String :=
  ["blocked-site.com", "restricted-content.org"]

/-- The `frontDomains` constant of `ScramjetEngine.applyDomainFronting`. -/
def frontDomains : List String :=
  ["google.com", "cloudflare.com", "aws.amazon.com"]

/-- Model of `ScramjetEngine.shouldApplyDomainFronting`: true when the URL contains a
censored domain as a substring. -/
def shouldApplyDomainFronting (url : String) : Bool :=
  censoredDomains.any (fun domain => jsIncludes url domain)

/-- UTF-8 encoding of a single character as a list of byte values; the model
of the encoder underlying `encodeURIComponent`. -/
def charUtf8Bytes (c : Char) : List Nat :=
  let n := c.toNat
  if n < 0x80 then [n]
  else if n < 0x800 then [0xC0 + n / 64, 0x80 + n % 64]
  else if n < 0x10000 then [0xE0 + n / 4096, 0x80 + (n / 64) % 64, 0x80 + n % 64]
  else [0xF0 + n / 262144, 0x80 + (n / 4096) % 64, 0x80 + (n / 64) % 64, 0x80 + n % 64]

/-- Uppercase hexadecimal digit for a value below 16. -/
def hexDigitChar (n : Nat) : Char :=
  if n < 10 then Char.ofNat (48 + n) else Char.ofNat (55 + n)

/-- The characters `encodeURIComponent` leaves unescaped. -/
def isUnescapedURIChar (c : Char) : Bool :=
  c.isAlphanum ||
    c ∈ [ '-', '_', '.', '!', '~', '*', Char.ofNat 39, '(', ')']

/-- Model of the JavaScript global `encodeURIComponent`: unescaped characters
pass through, every other character is percent-encoded byte-wise (uppercase
hexadecimal) from its UTF-8 encoding. -/
def encodeURIComponent (s : String) : String :=
  String.mk (s.data.flatMap (fun c =>
    if isUnescapedURIChar c then [c]
    else (charUtf8Bytes c).flatMap (fun b =>
      [ '%', hexDigitChar (b / 16), hexDigitChar (b % 16)])))

/-- The prefix substitution `url.replace(/^https?:\/\//, repl)` used by
`applyDomainFronting`: the anchored, non-global regex replaces one leading
`http://` or `https://` (the greedy `s?` prefers `https://`). -/
def replaceSchemePrefix (url repl : String) : String :=
  if "https://".data.isPrefixOf url.data then repl ++ String.mk (url.data.drop 8)
  else if "http://".data.isPrefixOf url.data then repl ++ String.mk (url.data.drop 7)
  else url

/-- Model of `ScramjetEngine.applyDomainFronting`. The `Math.random()` pick of the
front domain is passed in as the explicit index `pick` (reduced modulo the
pool size, as `Math.floor(Math.random() * length)` always lands in range). -/
def applyDomainFronting (pick : Nat) (url : String) : String :=
  let randomFront := frontDomains.getD (pick % frontDomains.length) ""
  replaceSchemePrefix url
    ("https://" ++ randomFront ++ "/proxy?url=" ++ encodeURIComponent url ++ "&")

/-- The rule-application loop of `ScramjetEngine.rewriteUrl`: rules of type
`"url"` are applied in order, each compiling its pattern with
`new RegExp(pattern, 'g')` (which throws on an invalid pattern — there is no
try/catch around it in the source, so the error propagates) and performing a
global replace. -/
def applyUrlRules : List TransformRule → String → Except RegexError String
  | [], s => .ok s
  | rule :: rest, s =>
    if rule.type = "url" then
      if regexPatternValid rule.pattern then
        applyUrlRules rest (jsReplaceAll s rule.pattern rule.replacement)
      else
        .error .syntaxError
    else
      applyUrlRules rest s

/-- Model of `ScramjetEngine.rewriteUrl`: apply the url-type transform rules in order,
then, when the original URL contains a censored domain, apply domain
fronting to the rewritten URL. `pick` is the explicit randomness for the
front-domain choice. -/
def rewriteUrl (config : ProxyConfig) (pick : Nat) (originalUrl : String) :
    Except RegexError String :=
  match applyUrlRules config.transformRules originalUrl with
  | .error e => .error e
  | .ok rewrittenUrl =>
    if shouldApplyDomainFronting originalUrl then
      .ok (applyDomainFronting pick rewrittenUrl)
    else
      .ok rewrittenUrl

/-- The rule-application loop of `ScramjetEngine.transformContent` for rules
of type `"content"`, with the same invalid-pattern propagation as
`applyUrlRules`. -/
def applyContentRules : List TransformRule → String → Except RegexError String
  | [], s => .ok s
  | rule :: rest, s =>
    if rule.type = "content" then
      if regexPatternValid rule.pattern then
        applyContentRules rest (jsReplaceAll s rule.pattern rule.replacement)
      else
        .error .syntaxError
    else
      applyContentRules rest s

/-- Model of `ScramjetEngine.transformContent`: returns the content unchanged when the
rule list is empty, otherwise applies the content-type rules in order. The
`contentType` argument is accepted and ignored, as in the source. -/
def transformContent (config : ProxyConfig) (content : String)
    (contentType : String) : Except RegexError String :=
  if config.transformRules.length = 0 then .ok content
  else applyContentRules config.transformRules content

/-- A JavaScript plain object used as a string-keyed map, modelled as an
association list in property order (keys are case-sensitive strings and, for
well-formed header objects, unique). -/
abbrev JSRecord := List (String × String)

/-- Model of the JavaScript `delete obj[key]` statement: removes the binding
for exactly that key (case-sensitively). -/
def recDelete (r : JSRecord) (k : String) : JSRecord :=
  r.filter (fun p => !(p.1 == k))

/-- Model of the JavaScript assignment `obj[key] = v`: overwrites an existing
binding in place, otherwise appends a new one. -/
def recSet (r : JSRecord) (k v : String) : JSRecord :=
  if r.any (fun p => p.1 == k) then
    r.map (fun p => if p.1 == k then (k, v) else p)
  else
    r ++ [(k, v)]

/-- Model of the JavaScript property read `obj[key]` on a record:
the first binding for the key, if any. -/
def recGet (r : JSRecord) (k : String) : Option String :=
  (r.find? (fun p => p.1 == k)).map (fun p => p.2)

/-- The fixed `userAgents` pool of `ScramjetEngine.generateRandomUserAgent`. -/
def userAgents : List String :=
  [ "Mozilla/5.0 (Windows NT 10.0; Win64; x64) AppleWebKit/537.36",
    "Mozilla/5.0 (Macintosh; Intel Mac OS X 10_15_7) AppleWebKit/537.36",
    "Mozilla/5.0 (X11; Linux x86_64) AppleWebKit/537.36"]

/-- Model of `ScramjetEngine.generateRandomUserAgent` with the `Math.random()` pick
passed in as an explicit in-range index. -/
def generateRandomUserAgent (pick : Nat) : String :=
  userAgents.getD (pick % userAgents.length) ""

/-- Decimal digit list of a natural number, most significant first,
structured with explicit fuel (fuel above the number of digits suffices;
dividing by ten each step, fuel `n + 1` is always enough). -/
def natDecimalDigitsGo : Nat → Nat → List Char
  | 0, _ => []
  | fuel + 1, n =>
    if n < 10 then [Char.ofNat (48 + n)]
    else natDecimalDigitsGo fuel (n / 10) ++ [Char.ofNat (48 + n % 10)]

/-- Model of JavaScript number-to-string conversion (template-literal
interpolation) for nonnegative integers: decimal digits, most significant
first. -/
def natDecimalDigits (n : Nat) : List Char :=
  natDecimalDigitsGo (n + 1) n

/-- String form of `natDecimalDigits`. -/
def jsNumToString (n : Nat) : String :=
  String.mk (natDecimalDigits n)

/-- Model of `ScramjetEngine.generateRandomIP` with the two `Math.random()` draws
passed in as explicit values reduced modulo 256 (the range of
`Math.floor(Math.random() * 256)`). -/
def generateRandomIP (a b : Nat) : String :=
  "192.168." ++ jsNumToString (a % 256) ++ "." ++ jsNumToString (b % 256)

/-- Model of `ScramjetEngine.sanitizeHeaders`: spread-copy the input object, delete the
`cookie`, `referer` and `origin` properties, then assign `user-agent`,
`x-forwarded-for` and `x-proxy-engine`. The three `Math.random()` draws are
the explicit parameters `uaPick`, `ipA`, `ipB`. -/
def sanitizeHeaders (uaPick ipA ipB : Nat) (headers : JSRecord) : JSRecord :=
  let sanitized := recDelete (recDelete (recDelete headers "cookie") "referer") "origin"
  let sanitized := recSet sanitized "user-agent" (generateRandomUserAgent uaPick)
  let sanitized := recSet sanitized "x-forwarded-for" (generateRandomIP ipA ipB)
  recSet sanitized "x-proxy-engine" "edgeflow-scramjet"

/-- ASCII lowercase on one character, the model of JavaScript
`toLowerCase` restricted to ASCII (header names and URL hosts are ASCII). -/
def asciiLowerChar (c : Char) : Char :=
  if 65 ≤ c.toNat ∧ c.toNat ≤ 90 then Char.ofNat (c.toNat + 32) else c

/-- ASCII lowercase on a string. -/
def asciiLower (s : String) : String :=
  String.mk (s.data.map asciiLowerChar)

/-- Case-insensitive name lookup on a response-header list: the model of the
Fetch API `Headers.prototype.get` (header names are matched
case-insensitively; `null` becomes `none`). -/
def headersGet (hs : JSRecord) (name : String) : Option String :=
  (hs.find? (fun p => asciiLower p.1 == asciiLower name)).map (fun p => p.2)

/-- An origin response as seen by the edge handler: the model of the Fetch
API `Response` value (raw body bytes; `body := none` models a null body). -/
structure FetchResponse where
  status : Nat
  statusText : String
  headers : JSRecord
  body : Option (List Nat)
deriving DecidableEq

/-- Model of `isCacheableResponse` from `src/api/proxy/route.ts`: not cacheable when
the status is an error status, or the cache-control header contains
`no-cache` or `no-store`, or the content type contains `application/json`;
cacheable otherwise. -/
def isCacheableResponse (response : FetchResponse) : Bool :=
  let cacheControl := (headersGet response.headers "cache-control").getD ""
  let contentType := (headersGet response.headers "content-type").getD ""
  if response.status ≥ 400 then
    false
  else if jsIncludes cacheControl "no-cache" ||
      jsIncludes cacheControl "no-store" ||
      jsIncludes contentType "application/json" then
    false
  else
    true

/-- The result of parsing a URL; only the `hostname` property is consumed by
the handler. -/
structure URLParts where
  hostname : String
deriving DecidableEq

/-- First occurrence split: `splitFirstSub sep s` returns the part of `s`
before the first occurrence of `sep` and the part after it. -/
def splitFirstSub (sep : List Char) : List Char → Option (List Char × List Char)
  | [] => none
  | c :: rest =>
    if sep.isPrefixOf (c :: rest) then
      some ([], List.drop sep.length (c :: rest))
    else
      match splitFirstSub sep rest with
      | some p => some (c :: p.1, p.2)
      | none => none

/-- Model of the WHATWG `new URL(url)` constructor restricted to absolute
hierarchical URLs: the scheme must be a non-empty alphabetic word followed by
`://`; the authority runs to the first `/`, `?` or `#`; userinfo (up to the
last `@`) and a port (after `:`) are stripped; the hostname is
ASCII-lowercased and must be non-empty. IPv6 literals, percent-decoding and
non-special schemes are outside the model; `none` models a thrown
`TypeError`. -/
def parseURL (s : String) : Option URLParts :=
  match splitFirstSub "://".data s.data with
  | none => none
  | some p =>
    let scheme := p.1
    if scheme.isEmpty || !(scheme.all Char.isAlpha) then none
    else
      let authority := p.2.takeWhile (fun c => !(c == '/' || c == '?' || c == '#'))
      let hostport :=
        if authority.contains '@' then
          (authority.reverse.takeWhile (fun c => !(c == '@'))).reverse
        else authority
      let hostname := hostport.takeWhile (fun c => !(c == ':'))
      if hostname.isEmpty then none
      else some { hostname := String.mk (hostname.map asciiLowerChar) }

/-- Model of `new TextDecoder('utf-8', \x7b fatal: false \x7d).decode`,
restricted to ASCII: bytes below `0x80` decode to the corresponding
character and every other byte decodes to the replacement character U+FFFD
(multi-byte UTF-8 sequences are outside the model; no claim inspects decoded
text). The decode is total — it never throws. -/
def textDecodeLossy (bytes : List Nat) : String :=
  String.mk (bytes.map (fun b => if b < 0x80 then Char.ofNat b else Char.ofNat 0xFFFD))

/-- The value the Edge Config store hands back for `get('proxy-config')`,
classified exactly as the handler's guard
`configData && typeof configData === 'object' && !Array.isArray(configData)`
distinguishes it: a falsy value, a truthy non-object, an array, or a
non-array object (which the handler casts, uncheckedly, to `ProxyConfig`). -/
inductive EdgeConfigValue where
  | falsy
  | truthyNonObject
  | arrayValue
  | objectValue (config : ProxyConfig)
deriving DecidableEq

/-- The parsed JSON request body after the destructuring
`const \x7b url, method = 'GET', headers = \x7b\x7d, body: requestBody \x7d = body`:
`url := none` models a missing / `undefined` property. -/
structure RequestBody where
  url : Option String
  method : String := "GET"
  headers : JSRecord := []
  body : Option String := none
deriving DecidableEq

/-- The truthiness test `if (!url)` on the destructured `url` property:
falsy when missing or the empty string. -/
def urlFalsy : Option String → Bool
  | none => true
  | some s => s.isEmpty

/-- The proxied `Request` the handler constructs and passes to `fetch`. -/
structure OutboundRequest where
  url : String
  method : String
  headers : JSRecord
  body : Option String
deriving DecidableEq

/-- The JSON value the handler returns via `NextResponse.json`: either one of
the error objects with its HTTP status, or the success payload (HTTP status
200). -/
inductive ProxyResult where
  | errorResp (message : String) (status : Nat)
  | success (content : String) (contentType : String) (status : Nat)
      (statusText : String) (headers : JSRecord) (cacheable : Bool)
deriving DecidableEq

/-- A row inserted into the `proxy_cache` table (the `headers` field is the
object the source serializes with `JSON.stringify`; `expiresAt` models
`NOW() + INTERVAL cacheTTL seconds` against the abstract clock `now`). -/
structure CacheInsert where
  key : String
  content : String
  contentType : String
  status : Nat
  statusText : String
  headers : JSRecord
  expiresAt : Nat
deriving DecidableEq

/-- The observable effect of one `POST` invocation: the JSON result, the
outbound origin request if the handler reached the `fetch` call (`none`
means the request was settled before any network fetch), and the server-tier
cache rows inserted. -/
structure HandlerOutput where
  result : ProxyResult
  outbound : Option OutboundRequest
  cacheInserts : List CacheInsert
deriving DecidableEq

/-- The response-header rebuild of the handler: copy every origin header
whose lowercased name is not `set-cookie`, `connection` or
`transfer-encoding`, then assign `x-proxied-by` and `x-cache-status`. -/
def buildResponseHeaders (hs : JSRecord) : JSRecord :=
  let copied := hs.filter (fun p =>
    !(["set-cookie", "connection", "transfer-encoding"].contains (asciiLower p.1)))
  recSet (recSet copied "x-proxied-by" "edgeflow") "x-cache-status" "MISS"

/-- The server-tier cache key `` `proxy:${url}:${Date.now()}` `` built from
the original request URL and the write timestamp. -/
def cacheKey (url : String) (now : Nat) : String :=
  "proxy:" ++ url ++ ":" ++ jsNumToString now

/-- The tail of the `POST` handler after the body-size gate: content
transformation (whose invalid-pattern exception is caught by the top-level
try/catch as a 500), response-header rebuild, cache-eligibility decision and
the conditional `proxy_cache` insert, then the success JSON. -/
def handlePostAfterBody (config : ProxyConfig) (url : String)
    (outbound : OutboundRequest) (response : FetchResponse)
    (contentType content : String) (now : Nat) : HandlerOutput :=
  match transformContent config content contentType with
  | .error _ => ⟨.errorResp "Proxy request failed" 500, some outbound, []⟩
  | .ok transformedContent =>
    let responseHeaders := buildResponseHeaders response.headers
    let cacheable := isCacheableResponse response
    let inserts : List CacheInsert :=
      if cacheable then
        [⟨cacheKey url now, transformedContent, contentType, response.status,
          response.statusText, responseHeaders, now + config.cacheTTL⟩]
      else []
    ⟨.success transformedContent contentType response.status response.statusText
      responseHeaders cacheable, some outbound, inserts⟩

/-- The `POST` handler of `src/api/proxy/route.ts` as a function of its
environment: `configLoad` is the Edge Config read (`.error` models a thrown
read, caught by the handler's top-level try/catch), `bodyParse` the
`request.json()` outcome, `fetchResult` the origin `fetch` outcome
(`.error` models a network error, the 30-second abort, or a failed `Request`
construction), `frontPick`/`uaPick`/`ipA`/`ipB` the `Math.random()` draws
and `now` the clock. Every caught exception produces the 500
`Proxy request failed` response, as in the source's catch block. -/
def handlePost (configLoad : Except Unit EdgeConfigValue)
    (bodyParse : Except Unit RequestBody)
    (fetchResult : Except Unit FetchResponse)
    (frontPick uaPick ipA ipB now : Nat) : HandlerOutput :=
  match configLoad with
  | .error _ => ⟨.errorResp "Proxy request failed" 500, none, []⟩
  | .ok configData =>
    let config : ProxyConfig :=
      match configData with
      | .objectValue c => c
      | _ => DEFAULT_CONFIG
    if !config.enabled then
      ⟨.errorResp "Proxy service is disabled" 503, none, []⟩
    else
      match bodyParse with
      | .error _ => ⟨.errorResp "Proxy request failed" 500, none, []⟩
      | .ok body =>
        if urlFalsy body.url then
          ⟨.errorResp "URL is required" 400, none, []⟩
        else
          let url := body.url.getD ""
          match parseURL url with
          | none => ⟨.errorResp "Invalid URL format" 400, none, []⟩
          | some targetUrl =>
            if config.blockedDomains.any
                (fun domain => jsIncludes targetUrl.hostname domain) then
              ⟨.errorResp "Domain is blocked" 403, none, []⟩
            else if config.allowedDomains.length > 0 &&
                !(config.allowedDomains.any
                  (fun domain => jsIncludes targetUrl.hostname domain)) then
              ⟨.errorResp "Domain is not allowed" 403, none, []⟩
            else
              match rewriteUrl config frontPick url with
              | .error _ => ⟨.errorResp "Proxy request failed" 500, none, []⟩
              | .ok rewrittenUrl =>
                let sanitizedHeaders := sanitizeHeaders uaPick ipA ipB body.headers
                let outbound : OutboundRequest :=
                  ⟨rewrittenUrl, body.method, sanitizedHeaders, body.body⟩
                match fetchResult with
                | .error _ =>
                  ⟨.errorResp "Proxy request failed" 500, some outbound, []⟩
                | .ok response =>
                  let contentType :=
                    (headersGet response.headers "content-type").getD "text/plain"
                  match response.body with
                  | some bytes =>
                    if bytes.length < config.maxContentLength then
                      handlePostAfterBody config url outbound response contentType
                        (textDecodeLossy bytes) now
                    else
                      ⟨.errorResp "Content too large" 413, some outbound, []⟩
                  | none =>
                    handlePostAfterBody config url outbound response contentType "" now

/-- A response as the service worker constructs and caches it
(`new Response(new Blob([content], \x7b type \x7d), \x7b status, statusText, headers \x7d)`). -/
structure SWResponse where
  status : Nat
  statusText : String
  headers : JSRecord
  contentType : String
  content : String
deriving DecidableEq

/-- The JSON payload of a successful edge-function response, as consumed by
`handleProxyRequest` (`response.json()`; the edge function of
`src/api/proxy/route.ts` always returns a JSON body via
`NextResponse.json`, so parsing is total within the system). -/
structure EdgeData where
  content : String
  contentType : String
  status : Nat
  statusText : String
  headers : JSRecord
  cacheable : Bool
deriving DecidableEq

/-- The outcome of the service worker's `fetch(proxyRequest)` call to the
edge function: a rejection (network error or timeout) or an HTTP response
with its status and JSON payload. -/
inductive SWFetchOutcome where
  | netError
  | resp (status : Nat) (data : EdgeData)
deriving DecidableEq

/-- The Fetch API `Response.ok` getter: true exactly for statuses 200–299. -/
def respOk (status : Nat) : Bool :=
  200 ≤ status && status < 300

/-- The fixed final-fallback response of `handleProxyRequest`. -/
def unavailableResponse : SWResponse :=
  { status := 503
    statusText := "Service Unavailable"
    headers := [("Content-Type", "text/plain")]
    contentType := "text/plain"
    content := "Proxy temporarily unavailable" }

/-- The observable effect of one `handleProxyRequest` call: the response
returned to the caller, the client-tier cache write if one happened
(`cache.put(request, ...)` keyed by the original request), and whether the
client-tier cache read (`caches.match(request)`) was attempted. -/
structure SWOutput where
  response : SWResponse
  cacheWrite : Option SWResponse
  cacheReadAttempted : Bool
deriving DecidableEq

/-- Model of `handleProxyRequest` from `src/public/sw.js` as a function of the edge
call's outcome and of the client-tier cache entry stored for this request's
identity (`cached := none` models a cache miss). A rejected fetch or a
non-ok status lands in the catch block, which first attempts the cache
read and only on a miss returns the fixed 503 response; on the success path
the cache is never read, and the proxied response is written back when the
payload is marked cacheable. -/
def handleProxyRequest (outcome : SWFetchOutcome)
    (cached : Option SWResponse) : SWOutput :=
  let fallback : SWOutput :=
    match cached with
    | some c => ⟨c, none, true⟩
    | none => ⟨unavailableResponse, none, true⟩
  match outcome with
  | .netError => fallback
  | .resp status data =>
    if !respOk status then
      fallback
    else
      let proxiedResponse : SWResponse :=
        ⟨data.status, data.statusText, data.headers, data.contentType, data.content⟩
      ⟨proxiedResponse, if data.cacheable then some proxiedResponse else none, false⟩

instance : DecidableEq (Except RegexError String) := fun a b =>
  match a, b with
  | .ok x, .ok y =>
    if h : x = y then isTrue (by rw [h]) else isFalse (by intro hc; cases hc; exact h rfl)
  | .error x, .error y =>
    if h : x = y then isTrue (by rw [h]) else isFalse (by intro hc; cases hc; exact h rfl)
  | .ok _, .error _ => isFalse (by intro hc; cases hc)
  | .error _, .ok _ => isFalse (by intro hc; cases hc)

/-! ### General lemmas about the string and record models -/

/-- A global replace leaves a list unchanged when the pattern does not occur
in it (fuel at least the list length). -/
theorem replaceAllGo_of_not_contains (pat repl : List Char) :
    ∀ (fuel : Nat) (s : List Char), s.length ≤ fuel →
      containsSub s pat = false → replaceAllGo pat repl fuel s = s := by
  intro fuel
  induction fuel with
  | zero =>
    intro s hlen _
    have : s = [] := List.eq_nil_of_length_eq_zero (Nat.le_zero.mp hlen)
    subst this
    rfl
  | succ fuel ih =>
    intro s hlen hcontains
    cases s with
    | nil => rfl
    | cons c rest =>
      simp only [containsSub, Bool.or_eq_false_iff] at hcontains
      obtain ⟨hnotpre, hrest⟩ := hcontains
      simp only [replaceAllGo]
      rw [if_neg]
      · have : replaceAllGo pat repl fuel rest = rest := by
          apply ih
          · have := hlen
            simp only [List.length_cons] at this
            omega
          · exact hrest
        rw [this]
      · intro hcond
        rw [hcond.2] at hnotpre
        cases hnotpre

/-- String form: a global replace is the identity when the string does not
contain the pattern. -/
theorem jsReplaceAll_of_not_contains (s pat repl : String)
    (h : jsIncludes s pat = false) : jsReplaceAll s pat repl = s := by
  unfold jsReplaceAll
  rw [replaceAllGo_of_not_contains pat.data repl.data s.data.length s.data
      (Nat.le_refl _) h]

/-- When the url-rule loop succeeds, every url-type rule in the list had a
valid pattern (an invalid one would have raised). -/
theorem applyUrlRules_ok_valid :
    ∀ (rules : List TransformRule) (s x : String),
      applyUrlRules rules s = .ok x →
      ∀ r ∈ rules, r.type = "url" → regexPatternValid r.pattern = true := by
  intro rules
  induction rules with
  | nil =>
    intro s x _ r hr
    cases hr
  | cons head tail ih =>
    intro s x hok r hr htype
    simp only [applyUrlRules] at hok
    rcases List.mem_cons.mp hr with heq | hmem
    · subst heq
      rw [if_pos htype] at hok
      by_cases hval : regexPatternValid r.pattern = true
      · exact hval
      · rw [if_neg hval] at hok
        cases hok
    · by_cases hhead : head.type = "url"
      · rw [if_pos hhead] at hok
        by_cases hval : regexPatternValid head.pattern = true
        · rw [if_pos hval] at hok
          exact ih _ _ hok r hmem htype
        · rw [if_neg hval] at hok
          cases hok
      · rw [if_neg hhead] at hok
        exact ih _ _ hok r hmem htype

/-- The url-rule loop raises a `SyntaxError` whenever the rule list holds a
url-type rule with an invalid pattern. -/
theorem applyUrlRules_error_of_invalid :
    ∀ (rules : List TransformRule) (r : TransformRule), r ∈ rules →
      r.type = "url" → regexPatternValid r.pattern = false →
      ∀ s, applyUrlRules rules s = .error .syntaxError := by
  intro rules
  induction rules with
  | nil =>
    intro r hr
    cases hr
  | cons head tail ih =>
    intro r hr htype hbad s
    simp only [applyUrlRules]
    rcases List.mem_cons.mp hr with heq | hmem
    · subst heq
      rw [if_pos htype, if_neg (by simp [hbad])]
    · by_cases hhead : head.type = "url"
      · rw [if_pos hhead]
        by_cases hval : regexPatternValid head.pattern = true
        · rw [if_pos hval]
          exact ih r hmem htype hbad _
        · rw [if_neg hval]
      · rw [if_neg hhead]
        exact ih r hmem htype hbad _

/-- The content-rule loop raises a `SyntaxError` whenever the rule list holds
a content-type rule with an invalid pattern. -/
theorem applyContentRules_error_of_invalid :
    ∀ (rules : List TransformRule) (r : TransformRule), r ∈ rules →
      r.type = "content" → regexPatternValid r.pattern = false →
      ∀ s, applyContentRules rules s = .error .syntaxError := by
  intro rules
  induction rules with
  | nil =>
    intro r hr
    cases hr
  | cons head tail ih =>
    intro r hr htype hbad s
    simp only [applyContentRules]
    rcases List.mem_cons.mp hr with heq | hmem
    · subst heq
      rw [if_pos htype, if_neg (by simp [hbad])]
    · by_cases hhead : head.type = "content"
      · rw [if_pos hhead]
        by_cases hval : regexPatternValid head.pattern = true
        · rw [if_pos hval]
          exact ih r hmem htype hbad _
        · rw [if_neg hval]
      · rw [if_neg hhead]
        exact ih r hmem htype hbad _

/-- The url-rule loop fixes any string in which no url-type rule's pattern
occurs, provided every url-type pattern is valid. -/
theorem applyUrlRules_id :
    ∀ (rules : List TransformRule) (v : String),
      (∀ r ∈ rules, r.type = "url" →
        regexPatternValid r.pattern = true ∧ jsIncludes v r.pattern = false) →
      applyUrlRules rules v = .ok v := by
  intro rules
  induction rules with
  | nil =>
    intro v _
    rfl
  | cons head tail ih =>
    intro v hyp
    simp only [applyUrlRules]
    by_cases hhead : head.type = "url"
    · obtain ⟨hval, hnc⟩ := hyp head (List.mem_cons_self _ _) hhead
      rw [if_pos hhead, if_pos hval, jsReplaceAll_of_not_contains _ _ _ hnc]
      exact ih v (fun r hr => hyp r (List.mem_cons_of_mem _ hr))
    · rw [if_neg hhead]
      exact ih v (fun r hr => hyp r (List.mem_cons_of_mem _ hr))

/-- Numeric value read back from a decimal digit list (used only to prove
that the decimal rendering is injective). -/
def decimalValue (l : List Char) : Nat :=
  l.foldl (fun acc c => acc * 10 + (c.toNat - 48)) 0

/-- With any initial accumulator, folding the digit step over an appended
single digit is one multiplication-addition. -/
theorem decimalValue_round (fuel : Nat) :
    ∀ n, n < fuel → decimalValue (natDecimalDigitsGo fuel n) = n := by
  induction fuel with
  | zero =>
    intro n hn
    omega
  | succ fuel ih =>
    intro n hn
    by_cases h10 : n < 10
    · simp only [natDecimalDigitsGo, if_pos h10, decimalValue, List.foldl_cons,
        List.foldl_nil]
      have hchar : (Char.ofNat (48 + n)).toNat = 48 + n := by
        interval_cases n <;> decide
      rw [hchar]
      omega
    · simp only [natDecimalDigitsGo, if_neg h10, decimalValue, List.foldl_append,
        List.foldl_cons, List.foldl_nil]
      have hdiv : n / 10 < fuel := by
        have h1 : n / 10 < n := Nat.div_lt_self (by omega) (by omega)
        omega
      have hmod : n % 10 < 10 := Nat.mod_lt _ (by omega)
      have hchar : (Char.ofNat (48 + n % 10)).toNat = 48 + n % 10 := by
        have h : n % 10 < 10 := hmod
        interval_cases hm : (n % 10) <;> simp [hm]
      rw [hchar]
      have := ih (n / 10) hdiv
      simp only [decimalValue] at this
      rw [this]
      omega

/-- The decimal rendering of naturals is injective (stated on the character
lists). -/
theorem jsNumToString_injective {a b : Nat}
    (h : natDecimalDigits a = natDecimalDigits b) : a = b := by
  have ha := decimalValue_round (a + 1) a (Nat.lt_succ_self a)
  have hb := decimalValue_round (b + 1) b (Nat.lt_succ_self b)
  simp only [natDecimalDigits] at h
  rw [← ha, ← hb, h]

/-- Distinct write timestamps give distinct server-tier cache keys for the
same URL. -/
theorem cacheKey_injective_in_time (url : String) {t1 t2 : Nat}
    (h : cacheKey url t1 = cacheKey url t2) : t1 = t2 := by
  apply jsNumToString_injective
  have hdata := congrArg String.data h
  simp only [cacheKey, String.data_append, List.append_assoc, jsNumToString,
    List.append_cancel_left_eq] at hdata
  exact hdata

/-! ### Record lemmas -/

/-- Membership after a record assignment: either the assigned pair or an
original member. -/
theorem mem_recSet {r : JSRecord} {k v : String} {p : String × String}
    (h : p ∈ recSet r k v) : p = (k, v) ∨ p ∈ r := by
  unfold recSet at h
  by_cases hany : r.any (fun q => q.1 == k) = true
  · rw [if_pos hany] at h
    rcases List.mem_map.mp h with ⟨q, hq, heq⟩
    by_cases hk : (q.1 == k) = true
    · left
      rw [← heq]
      simp [hk]
    · right
      rw [← heq]
      simp only [hk, Bool.false_eq_true, if_neg]
      simpa [hk] using hq
  · rw [if_neg hany] at h
    rcases List.mem_append.mp h with hmem | hmem
    · right; exact hmem
    · left; simpa using hmem

/-- Finding the assigned key in the replacement image of a record that held
the key. -/
theorem find?_replace_self (k v : String) :
    ∀ r : JSRecord, r.any (fun q => q.1 == k) = true →
      List.find? (fun p => p.1 == k)
        (r.map (fun p => if p.1 == k then (k, v) else p)) = some (k, v) := by
  intro r
  induction r with
  | nil => intro hany; cases hany
  | cons head tail ih =>
    intro hany
    simp only [List.map_cons]
    by_cases hk : (head.1 == k) = true
    · rw [if_pos hk]
      rw [List.find?_cons_of_pos _ (by simp)]
    · rw [if_neg hk]
      rw [List.find?_cons_of_neg _ (by simpa using hk)]
      apply ih
      simp only [List.any_cons, Bool.or_eq_true] at hany
      rcases hany with h1 | h2
      · exact absurd h1 hk
      · exact h2

/-- Reading the key just assigned returns the assigned value. -/
theorem recGet_recSet_self (r : JSRecord) (k v : String) :
    recGet (recSet r k v) k = some v := by
  unfold recSet recGet
  by_cases hany : r.any (fun q => q.1 == k) = true
  · rw [if_pos hany, find?_replace_self k v r hany]
    rfl
  · rw [if_neg hany]
    have hnone : r.find? (fun p => p.1 == k) = none := by
      rw [List.find?_eq_none]
      intro x hx hpx
      exact hany (List.any_eq_true.mpr ⟨x, hx, hpx⟩)
    rw [List.find?_append, hnone]
    simp

/-- Finding another key is unaffected by the replacement image of an
assignment. -/
theorem find?_replace_ne (k v k' : String) (h : k' ≠ k) :
    ∀ r : JSRecord,
      List.find? (fun p => p.1 == k')
        (r.map (fun p => if p.1 == k then (k, v) else p)) =
      List.find? (fun p => p.1 == k') r := by
  intro r
  induction r with
  | nil => rfl
  | cons head tail ih =>
    simp only [List.map_cons]
    by_cases hk : (head.1 == k) = true
    · rw [if_pos hk]
      have hne1 : ¬(((k, v) : String × String).1 == k') = true := by
        simp only [beq_iff_eq]
        intro hc
        exact h hc.symm
      have hne2 : ¬(head.1 == k') = true := by
        simp only [beq_iff_eq] at hk ⊢
        intro hc
        exact h (by rw [← hc, hk])
      rw [List.find?_cons_of_neg (p := fun q : String × String => q.1 == k') _ hne1,
        List.find?_cons_of_neg (p := fun q : String × String => q.1 == k') _ hne2]
      exact ih
    · rw [if_neg hk]
      by_cases hk' : (head.1 == k') = true
      · rw [List.find?_cons_of_pos (p := fun q : String × String => q.1 == k') _ hk',
          List.find?_cons_of_pos (p := fun q : String × String => q.1 == k') _ hk']
      · rw [List.find?_cons_of_neg (p := fun q : String × String => q.1 == k') _ hk',
          List.find?_cons_of_neg (p := fun q : String × String => q.1 == k') _ hk']
        exact ih

/-- Reading a different key is unaffected by an assignment. -/
theorem recGet_recSet_ne (r : JSRecord) (k v k' : String) (h : k' ≠ k) :
    recGet (recSet r k v) k' = recGet r k' := by
  unfold recSet recGet
  by_cases hany : r.any (fun q => q.1 == k) = true
  · rw [if_pos hany, find?_replace_ne k v k' h r]
  · rw [if_neg hany]
    have hone : List.find? (fun p => p.1 == k') [(k, v)] = none := by
      have hne1 : ¬(((k, v) : String × String).1 == k') = true := by
        simp only [beq_iff_eq]
        intro hc
        exact h hc.symm
      rw [List.find?_cons_of_neg (p := fun q : String × String => q.1 == k') _ hne1, List.find?_nil]
    rw [List.find?_append, hone]
    simp

/-- In a record whose keys are distinct, a member pair is what its key reads
back. -/
theorem recGet_of_mem_nodup {r : JSRecord} {k v : String}
    (hnodup : (r.map Prod.fst).Nodup) (hmem : (k, v) ∈ r) :
    recGet r k = some v := by
  induction r with
  | nil => cases hmem
  | cons head tail ih =>
    simp only [List.map_cons, List.nodup_cons] at hnodup
    rcases List.mem_cons.mp hmem with heq | hmem2
    · unfold recGet
      rw [List.find?_cons_of_pos _ (by simp [← heq]), ← heq]
      rfl
    · have hne : ¬(head.1 == k) = true := by
        simp only [beq_iff_eq]
        intro hc
        exact hnodup.1 (by
          rw [hc]
          exact List.mem_map.mpr ⟨(k, v), hmem2, rfl⟩)
      unfold recGet
      rw [List.find?_cons_of_neg (p := fun q : String × String => q.1 == k) _ hne]
      exact ih hnodup.2 hmem2

/-! ### Claim theorems -/

set_option maxRecDepth 8000

/-- C10: for every POST request, when the loaded configuration has
`enabled = false` the handler returns the 503 `Proxy service is disabled`
response before the request body is read or validated: the result is the
same for every body-parse outcome (including a malformed body, a missing
URL, or a blocked domain) and every fetch outcome, no fetch is made and
nothing is cached — the service-disabled code takes precedence over all
input-validation and policy codes. -/
theorem disabled_service_masks_all_errors
    (cfg : ProxyConfig) (h : cfg.enabled = false)
    (bodyParse : Except Unit RequestBody) (fetchResult : Except Unit FetchResponse)
    (frontPick uaPick ipA ipB now : Nat) :
    handlePost (.ok (.objectValue cfg)) bodyParse fetchResult
        frontPick uaPick ipA ipB now =
      ⟨.errorResp "Proxy service is disabled" 503, none, []⟩ := by
  simp [handlePost, h]

/-- Witness for C10 at a concrete disabled configuration, a request whose
body fails to parse, and a failing fetch. -/
theorem disabled_service_masks_all_errors_witness :
    handlePost (.ok (.objectValue { DEFAULT_CONFIG with enabled := false }))
        (.error ()) (.error ()) 0 0 0 0 0 =
      ⟨.errorResp "Proxy service is disabled" 503, none, []⟩ :=
  disabled_service_masks_all_errors _ rfl (.error ()) (.error ()) 0 0 0 0 0

/-- C1 (amended): for every configuration with `enabled = true` and every
request whose URL parses and whose hostname contains some `blockedDomains`
entry as a substring, the handler returns the `Domain is blocked` rejection
with status 403 regardless of `allowedDomains`, for every fetch outcome,
with no outbound fetch and no cache write. -/
theorem blocked_domain_takes_precedence
    (cfg : ProxyConfig) (henabled : cfg.enabled = true)
    (body : RequestBody) (u : String) (hurl : body.url = some u)
    (hne : u.isEmpty = false)
    (parts : URLParts) (hparse : parseURL u = some parts)
    (hblocked : cfg.blockedDomains.any
      (fun domain => jsIncludes parts.hostname domain) = true)
    (fetchResult : Except Unit FetchResponse)
    (frontPick uaPick ipA ipB now : Nat) :
    handlePost (.ok (.objectValue cfg)) (.ok body) fetchResult
        frontPick uaPick ipA ipB now =
      ⟨.errorResp "Domain is blocked" 403, none, []⟩ := by
  simp only [handlePost, henabled, Bool.not_true, Bool.false_eq_true, if_neg,
    urlFalsy, hurl, hne, hparse, hblocked, Option.getD_some, if_true]
  rfl

/-- Witness for C1's amended theorem: a configuration whose allow-list even
contains the blocked host still rejects with 403 and performs no fetch. -/
theorem blocked_domain_takes_precedence_witness :
    handlePost
        (.ok (.objectValue
          { enabled := true, cacheTTL := 3600, maxContentLength := 1048576,
            allowedDomains := ["evil.com"], blockedDomains := ["evil.com"],
            transformRules := [] }))
        (.ok { url := some "https://evil.com/" }) (.error ()) 0 0 0 0 0 =
      ⟨.errorResp "Domain is blocked" 403, none, []⟩ :=
  blocked_domain_takes_precedence _ rfl _ "https://evil.com/" rfl rfl
    { hostname := "evil.com" } (by decide) (by decide) (.error ()) 0 0 0 0 0

/-- C1 counterexample to the claim as stated ("for every configuration"): a
configuration with `enabled = false` whose `blockedDomains` entry matches
the hostname of a syntactically valid URL yields the 503 service-disabled
response, not the 403 domain-blocked rejection. -/
theorem blocked_domain_counterexample :
    parseURL "https://evil.com/" = some { hostname := "evil.com" } ∧
    jsIncludes "evil.com" "evil.com" = true ∧
    handlePost
        (.ok (.objectValue
          { enabled := false, cacheTTL := 3600, maxContentLength := 1048576,
            allowedDomains := [], blockedDomains := ["evil.com"],
            transformRules := [] }))
        (.ok { url := some "https://evil.com/" }) (.error ()) 0 0 0 0 0 =
      ⟨.errorResp "Proxy service is disabled" 503, none, []⟩ ∧
    (handlePost
        (.ok (.objectValue
          { enabled := false, cacheTTL := 3600, maxContentLength := 1048576,
            allowedDomains := [], blockedDomains := ["evil.com"],
            transformRules := [] }))
        (.ok { url := some "https://evil.com/" }) (.error ()) 0 0 0 0 0).result ≠
      .errorResp "Domain is blocked" 403 := by
  refine ⟨by decide, by decide, by decide, by decide⟩

/-- C5: when the forwarding call from the service worker fails — the fetch
rejects (network error / timeout) or the edge function answers with a
non-success status — the caller receives the previously cached client-tier
response when one exists and otherwise the fixed
`Proxy temporarily unavailable` response with status 503; the client-tier
cache read is attempted exactly on such failures and never on a successful
forwarding call. -/
theorem sw_fallback_spec (cached : Option SWResponse) :
    handleProxyRequest .netError cached =
        ⟨cached.getD unavailableResponse, none, true⟩ ∧
    (∀ status data, respOk status = false →
      handleProxyRequest (.resp status data) cached =
        ⟨cached.getD unavailableResponse, none, true⟩) ∧
    (∀ status data, respOk status = true →
      (handleProxyRequest (.resp status data) cached).cacheReadAttempted = false) ∧
    unavailableResponse.status = 503 ∧
    unavailableResponse.content = "Proxy temporarily unavailable" := by
  refine ⟨?_, ?_, ?_, rfl, rfl⟩
  · cases cached <;> rfl
  · intro status data hfail
    cases cached <;> simp [handleProxyRequest, hfail, Option.getD]
  · intro status data hok
    simp [handleProxyRequest, hok]

/-- Witness for C5: a timed-out edge call with no prior cache entry yields
the fixed 503 response; a 200 edge call attempts no cache read. -/
theorem sw_fallback_spec_witness :
    handleProxyRequest .netError none = ⟨unavailableResponse, none, true⟩ ∧
    handleProxyRequest (.resp 500
        ⟨"", "text/plain", 500, "err", [], false⟩) none =
      ⟨unavailableResponse, none, true⟩ ∧
    (handleProxyRequest (.resp 200
        ⟨"hi", "text/html", 200, "OK", [], true⟩) none).cacheReadAttempted = false :=
  ⟨(sw_fallback_spec none).1,
    (sw_fallback_spec none).2.1 500 ⟨"", "text/plain", 500, "err", [], false⟩ rfl,
    (sw_fallback_spec none).2.2.1 200 ⟨"hi", "text/html", 200, "OK", [], true⟩ rfl⟩

/-- C4 (amended): `isCacheableResponse` returns false exactly when the
status is at least 400, or the cache-control header contains `no-cache` or
`no-store`, or the content type CONTAINS `application/json` as a substring
(the source tests `contentType.includes('application/json')`, not equality);
in every other case it returns true. -/
theorem isCacheableResponse_false_iff (response : FetchResponse) :
    isCacheableResponse response = false ↔
      (400 ≤ response.status ∨
        jsIncludes ((headersGet response.headers "cache-control").getD "")
          "no-cache" = true ∨
        jsIncludes ((headersGet response.headers "cache-control").getD "")
          "no-store" = true ∨
        jsIncludes ((headersGet response.headers "content-type").getD "")
          "application/json" = true) := by
  unfold isCacheableResponse
  by_cases hstatus : response.status ≥ 400
  · simp [hstatus]
  · rw [if_neg hstatus]
    by_cases hdyn :
        (jsIncludes ((headersGet response.headers "cache-control").getD "")
            "no-cache" ||
          jsIncludes ((headersGet response.headers "cache-control").getD "")
            "no-store" ||
          jsIncludes ((headersGet response.headers "content-type").getD "")
            "application/json") = true
    · rw [if_pos hdyn]
      simp only [Bool.or_eq_true] at hdyn
      simp [hstatus]
      tauto
    · rw [if_neg hdyn]
      simp only [Bool.or_eq_true, not_or] at hdyn
      simp [hstatus, hdyn.1.1, hdyn.1.2, hdyn.2]

/-- C4 counterexample to the claim as stated: a 200 response whose content
type is `application/json; charset=utf-8` — not equal to
`application/json`, with no cache-control header — is rejected by
`isCacheableResponse`, although none of the claim's three conditions (status
at least 400, cache-control directive, content type IS `application/json`)
holds. -/
theorem isCacheableResponse_counterexample :
    isCacheableResponse
        { status := 200, statusText := "OK",
          headers := [("content-type", "application/json; charset=utf-8")],
          body := none } = false ∧
    ¬(400 ≤ 200 ∨
      jsIncludes
        ((headersGet [("content-type", "application/json; charset=utf-8")]
          "cache-control").getD "") "no-cache" = true ∨
      jsIncludes
        ((headersGet [("content-type", "application/json; charset=utf-8")]
          "cache-control").getD "") "no-store" = true ∨
      ((headersGet [("content-type", "application/json; charset=utf-8")]
          "content-type").getD "") = "application/json") := by
  refine ⟨by decide, by decide⟩

/-- C8 (amended): when the configuration store returns a value that is not a
configuration object (falsy, a truthy primitive, or an array), the handler
falls back to `DEFAULT_CONFIG` and continues — it behaves identically to a
load of the default configuration, for every body, fetch outcome and
randomness; when the configuration store THROWS, however, the top-level
catch aborts the request with the 500 `Proxy request failed` response. -/
theorem config_fallback_amended :
    (∀ v : EdgeConfigValue, (∀ c, v ≠ .objectValue c) →
      ∀ (bodyParse : Except Unit RequestBody)
        (fetchResult : Except Unit FetchResponse)
        (frontPick uaPick ipA ipB now : Nat),
        handlePost (.ok v) bodyParse fetchResult frontPick uaPick ipA ipB now =
          handlePost (.ok (.objectValue DEFAULT_CONFIG)) bodyParse fetchResult
            frontPick uaPick ipA ipB now) ∧
    (∀ (bodyParse : Except Unit RequestBody)
        (fetchResult : Except Unit FetchResponse)
        (frontPick uaPick ipA ipB now : Nat),
      handlePost (.error ()) bodyParse fetchResult frontPick uaPick ipA ipB now =
        ⟨.errorResp "Proxy request failed" 500, none, []⟩) := by
  constructor
  · intro v hv bodyParse fetchResult frontPick uaPick ipA ipB now
    cases v with
    | falsy => rfl
    | truthyNonObject => rfl
    | arrayValue => rfl
    | objectValue c => exact absurd rfl (hv c)
  · intro bodyParse fetchResult frontPick uaPick ipA ipB now
    rfl

/-- Witness for C8's amended theorem: a falsy Edge Config value behaves like
the default configuration on a concrete request. -/
theorem config_fallback_amended_witness :
    handlePost (.ok .falsy) (.ok { url := some "https://example.com/" })
        (.error ()) 0 0 0 0 0 =
      handlePost (.ok (.objectValue DEFAULT_CONFIG))
        (.ok { url := some "https://example.com/" }) (.error ()) 0 0 0 0 0 :=
  config_fallback_amended.1 .falsy (fun c hc => by cases hc)
    (.ok { url := some "https://example.com/" }) (.error ()) 0 0 0 0 0

/-- C8 counterexample to the claim as stated: when the configuration store
throws, the handler does NOT continue with the default configuration — the
same request that would succeed under `DEFAULT_CONFIG` is aborted with the
500 `Proxy request failed` response. -/
theorem config_fallback_counterexample :
    handlePost (.error ()) (.ok { url := some "https://example.com/" })
        (.ok { status := 200, statusText := "OK",
               headers := [("content-type", "text/html")],
               body := some [104, 105] }) 0 0 0 0 0 =
      ⟨.errorResp "Proxy request failed" 500, none, []⟩ ∧
    (handlePost (.ok (.objectValue DEFAULT_CONFIG))
        (.ok { url := some "https://example.com/" })
        (.ok { status := 200, statusText := "OK",
               headers := [("content-type", "text/html")],
               body := some [104, 105] }) 0 0 0 0 0).result =
      .success "hi" "text/html" 200 "OK"
        [("content-type", "text/html"), ("x-proxied-by", "edgeflow"),
         ("x-cache-status", "MISS")] true := by
  refine ⟨by decide, by decide⟩

/-- The post-fetch tail never produces the `Content too large` rejection:
that rejection arises only from the size gate before it. -/
theorem handlePostAfterBody_result_ne (cfg : ProxyConfig) (url : String)
    (outbound : OutboundRequest) (response : FetchResponse)
    (contentType content : String) (now : Nat) :
    (handlePostAfterBody cfg url outbound response contentType content now).result ≠
      .errorResp "Content too large" 413 := by
  unfold handlePostAfterBody
  cases htc : transformContent cfg content contentType with
  | error e =>
    intro hc
    simp only [ProxyResult.errorResp.injEq] at hc
    omega
  | ok tc =>
    intro hc
    cases hc

/-- C2 (amended): an invalid regular-expression pattern in a transform rule
is NOT skipped — `new RegExp` throws and the exception propagates. For a
url-type rule the whole request is aborted with the 500
`Proxy request failed` response before any fetch, whatever the other rules
are; for a content-type rule the content transformation itself raises the
`SyntaxError` (which the handler's catch likewise turns into the 500
response). -/
theorem invalid_pattern_aborts_request
    (cfg : ProxyConfig) (rule : TransformRule)
    (hmem : rule ∈ cfg.transformRules)
    (hbad : regexPatternValid rule.pattern = false) :
    (rule.type = "url" →
      cfg.enabled = true →
      ∀ (body : RequestBody) (u : String), body.url = some u →
        u.isEmpty = false →
        ∀ parts : URLParts, parseURL u = some parts →
        cfg.blockedDomains.any
          (fun domain => jsIncludes parts.hostname domain) = false →
        (cfg.allowedDomains.length > 0 &&
          !(cfg.allowedDomains.any
            (fun domain => jsIncludes parts.hostname domain))) = false →
        ∀ (fetchResult : Except Unit FetchResponse)
          (frontPick uaPick ipA ipB now : Nat),
          handlePost (.ok (.objectValue cfg)) (.ok body) fetchResult
              frontPick uaPick ipA ipB now =
            ⟨.errorResp "Proxy request failed" 500, none, []⟩) ∧
    (rule.type = "content" →
      ∀ content contentType : String,
        transformContent cfg content contentType = .error .syntaxError) := by
  constructor
  · intro htype henabled body u hurl hne parts hparse hblocked hallowed
      fetchResult frontPick uaPick ipA ipB now
    have herr : rewriteUrl cfg frontPick u = .error .syntaxError := by
      unfold rewriteUrl
      rw [applyUrlRules_error_of_invalid cfg.transformRules rule hmem htype hbad u]
    simp only [handlePost, henabled, Bool.not_true, Bool.false_eq_true, if_neg,
      urlFalsy, hurl, hne, hparse, hblocked, hallowed, Option.getD_some, herr,
      if_true, if_false]
  · intro htype content contentType
    unfold transformContent
    rw [if_neg (by
      intro hlen
      rw [List.length_eq_zero] at hlen
      rw [hlen] at hmem
      cases hmem)]
    exact applyContentRules_error_of_invalid cfg.transformRules rule hmem
      htype hbad content

/-- Witness for C2's amended theorem at a concrete configuration holding one
invalid url-rule pattern. -/
theorem invalid_pattern_aborts_request_witness :
    handlePost
        (.ok (.objectValue
          { enabled := true, cacheTTL := 3600, maxContentLength := 1048576,
            allowedDomains := [], blockedDomains := [],
            transformRules := [⟨"(", "x", "url"⟩] }))
        (.ok { url := some "https://example.com/" }) (.error ()) 0 0 0 0 0 =
      ⟨.errorResp "Proxy request failed" 500, none, []⟩ :=
  (invalid_pattern_aborts_request _ ⟨"(", "x", "url"⟩ (by decide) (by decide)).1
    rfl rfl _ "https://example.com/" rfl rfl { hostname := "example.com" }
    (by decide) (by decide) (by decide) (.error ()) 0 0 0 0 0

/-- C2 counterexample to the claim as stated: with an invalid first rule and
a valid second rule, the request is aborted with 500 — no fetch, nothing
cached, the remaining valid rule never applied — whereas the same request
under the remaining rule alone goes through to the origin and succeeds. -/
theorem invalid_pattern_counterexample :
    handlePost
        (.ok (.objectValue
          { enabled := true, cacheTTL := 3600, maxContentLength := 1048576,
            allowedDomains := [], blockedDomains := [],
            transformRules := [⟨"(", "x", "url"⟩, ⟨"example", "sample", "url"⟩] }))
        (.ok { url := some "https://example.com/" })
        (.ok { status := 200, statusText := "OK",
               headers := [("content-type", "text/html")],
               body := some [104, 105] }) 0 0 0 0 0 =
      ⟨.errorResp "Proxy request failed" 500, none, []⟩ ∧
    (handlePost
        (.ok (.objectValue
          { enabled := true, cacheTTL := 3600, maxContentLength := 1048576,
            allowedDomains := [], blockedDomains := [],
            transformRules := [⟨"example", "sample", "url"⟩] }))
        (.ok { url := some "https://example.com/" })
        (.ok { status := 200, statusText := "OK",
               headers := [("content-type", "text/html")],
               body := some [104, 105] }) 0 0 0 0 0).outbound =
      some ⟨"https://sample.com/", "GET", sanitizeHeaders 0 0 0 [], none⟩ := by
  refine ⟨by decide, by decide⟩

/-- C3 (amended): once the handler reaches the fetched response's body, it
returns the `Content too large` rejection with status 413 exactly when the
body's byte length is AT LEAST `maxContentLength` (the source admits only a
strictly smaller body: `buffer.byteLength < config.maxContentLength`), and
an oversized body is never passed to the content transformer and never
cached — the whole output is the fixed 413 rejection. -/
theorem content_too_large_iff
    (cfg : ProxyConfig) (henabled : cfg.enabled = true)
    (body : RequestBody) (u : String) (hurl : body.url = some u)
    (hne : u.isEmpty = false)
    (parts : URLParts) (hparse : parseURL u = some parts)
    (hblocked : cfg.blockedDomains.any
      (fun domain => jsIncludes parts.hostname domain) = false)
    (hallowed : (cfg.allowedDomains.length > 0 &&
      !(cfg.allowedDomains.any
        (fun domain => jsIncludes parts.hostname domain))) = false)
    (rewritten : String) (frontPick : Nat)
    (hrw : rewriteUrl cfg frontPick u = .ok rewritten)
    (response : FetchResponse) (bytes : List Nat)
    (hbody : response.body = some bytes)
    (uaPick ipA ipB now : Nat) :
    ((handlePost (.ok (.objectValue cfg)) (.ok body) (.ok response)
        frontPick uaPick ipA ipB now).result =
          .errorResp "Content too large" 413 ↔
      cfg.maxContentLength ≤ bytes.length) ∧
    (cfg.maxContentLength ≤ bytes.length →
      handlePost (.ok (.objectValue cfg)) (.ok body) (.ok response)
          frontPick uaPick ipA ipB now =
        ⟨.errorResp "Content too large" 413,
          some ⟨rewritten, body.method,
            sanitizeHeaders uaPick ipA ipB body.headers, body.body⟩, []⟩) := by
  have hmain : handlePost (.ok (.objectValue cfg)) (.ok body) (.ok response)
      frontPick uaPick ipA ipB now =
      if bytes.length < cfg.maxContentLength then
        handlePostAfterBody cfg u
          ⟨rewritten, body.method, sanitizeHeaders uaPick ipA ipB body.headers,
            body.body⟩ response
          ((headersGet response.headers "content-type").getD "text/plain")
          (textDecodeLossy bytes) now
      else
        ⟨.errorResp "Content too large" 413,
          some ⟨rewritten, body.method,
            sanitizeHeaders uaPick ipA ipB body.headers, body.body⟩, []⟩ := by
    simp only [handlePost, henabled, Bool.not_true, Bool.false_eq_true, if_neg,
      urlFalsy, hurl, hne, hparse, hblocked, hallowed, Option.getD_some, hrw,
      hbody, if_true, if_false]
  by_cases hlen : bytes.length < cfg.maxContentLength
  · rw [hmain, if_pos hlen]
    constructor
    · constructor
      · intro hres
        exact absurd hres (handlePostAfterBody_result_ne _ _ _ _ _ _ _)
      · intro hge
        omega
    · intro hge
      omega
  · rw [hmain, if_neg hlen]
    constructor
    · simp only [true_iff]
      omega
    · intro _
      rfl

/-- Witness for C3's amended theorem: a five-byte body against a four-byte
cap is rejected with the fixed 413 output. -/
theorem content_too_large_iff_witness :
    handlePost
        (.ok (.objectValue
          { enabled := true, cacheTTL := 3600, maxContentLength := 4,
            allowedDomains := [], blockedDomains := [], transformRules := [] }))
        (.ok { url := some "https://example.com/" })
        (.ok { status := 200, statusText := "OK",
               headers := [("content-type", "text/html")],
               body := some [104, 105, 104, 105, 104] }) 0 0 0 0 0 =
      ⟨.errorResp "Content too large" 413,
        some ⟨"https://example.com/", "GET", sanitizeHeaders 0 0 0 [], none⟩,
        []⟩ :=
  (content_too_large_iff _ rfl _ "https://example.com/" rfl rfl
      { hostname := "example.com" } (by decide) (by decide) (by decide)
      "https://example.com/" 0 (by decide) _ [104, 105, 104, 105, 104] rfl
      0 0 0 0).2 (by decide)

/-- C3 counterexample to the claim as stated: a body whose byte length
EQUALS `maxContentLength` — so does not exceed it — is still rejected with
the 413 `Content too large` response (the source keeps only strictly
smaller bodies); moreover the source buffers the whole body with
`response.arrayBuffer()` before this size check runs. -/
theorem content_too_large_counterexample :
    (handlePost
        (.ok (.objectValue
          { enabled := true, cacheTTL := 3600, maxContentLength := 4,
            allowedDomains := [], blockedDomains := [], transformRules := [] }))
        (.ok { url := some "https://example.com/" })
        (.ok { status := 200, statusText := "OK",
               headers := [("content-type", "text/html")],
               body := some [104, 105, 104, 105] }) 0 0 0 0 0).result =
      .errorResp "Content too large" 413 ∧
    ¬((4 : Nat) < 4) := by
  refine ⟨by decide, by decide⟩

/-- C9 (amended): applying the URL rewrite twice is the identity on the
already-transformed URL provided the transformed URL both matches no
url-rule's pattern AND contains no `censoredDomains` entry (so domain
fronting does not fire a second time), for any randomness picks. -/
theorem rewriteUrl_fixed_point
    (cfg : ProxyConfig) (pick pick2 : Nat) (u v : String)
    (h : rewriteUrl cfg pick u = .ok v)
    (hnomatch : ∀ r ∈ cfg.transformRules, r.type = "url" →
      jsIncludes v r.pattern = false)
    (hnofront : shouldApplyDomainFronting v = false) :
    rewriteUrl cfg pick2 v = .ok v := by
  have hvalid : ∀ r ∈ cfg.transformRules, r.type = "url" →
      regexPatternValid r.pattern = true := by
    unfold rewriteUrl at h
    cases happly : applyUrlRules cfg.transformRules u with
    | error e =>
      rw [happly] at h
      cases h
    | ok x =>
      exact applyUrlRules_ok_valid _ _ _ happly
  have hid : applyUrlRules cfg.transformRules v = .ok v :=
    applyUrlRules_id _ _ (fun r hr ht => ⟨hvalid r hr ht, hnomatch r hr ht⟩)
  unfold rewriteUrl
  rw [hid]
  simp [hnofront]

/-- Witness for C9's amended theorem: one url rule upgrading the scheme; the
transformed URL no longer matches the pattern and is a fixed point. -/
theorem rewriteUrl_fixed_point_witness :
    rewriteUrl
        { enabled := true, cacheTTL := 3600, maxContentLength := 1048576,
          allowedDomains := [], blockedDomains := [],
          transformRules := [⟨"http:", "https:", "url"⟩] } 1
        "https://a.example/p" = .ok "https://a.example/p" :=
  rewriteUrl_fixed_point _ 0 1 "http://a.example/p" "https://a.example/p"
    (by decide) (by decide) (by decide)

/-- C9 counterexample to the claim as stated: with an empty rule set (so the
transformed URL vacuously matches no rule's pattern), the URL
`https://blocked-site.com/x` triggers domain fronting, the fronted URL still
contains `blocked-site.com`, and applying `rewriteUrl` to it fronts again —
the transformed URL is NOT a fixed point. -/
theorem rewriteUrl_fixed_point_counterexample :
    rewriteUrl DEFAULT_CONFIG 0 "https://blocked-site.com/x" =
      .ok "https://google.com/proxy?url=https%3A%2F%2Fblocked-site.com%2Fx&blocked-site.com/x" ∧
    DEFAULT_CONFIG.transformRules = [] ∧
    rewriteUrl DEFAULT_CONFIG 0
        "https://google.com/proxy?url=https%3A%2F%2Fblocked-site.com%2Fx&blocked-site.com/x" ≠
      .ok "https://google.com/proxy?url=https%3A%2F%2Fblocked-site.com%2Fx&blocked-site.com/x" := by
  refine ⟨by decide, rfl, by decide⟩

/-- C7: on the cacheable success path, the server-tier insert is keyed by
the original (unrewritten) request URL together with the write timestamp,
with expiry `now + cacheTTL`; distinct write timestamps always produce
distinct keys, so repeated cacheable requests to the same URL accumulate
rather than overwrite. -/
theorem cache_insert_key_spec
    (cfg : ProxyConfig) (henabled : cfg.enabled = true)
    (body : RequestBody) (u : String) (hurl : body.url = some u)
    (hne : u.isEmpty = false)
    (parts : URLParts) (hparse : parseURL u = some parts)
    (hblocked : cfg.blockedDomains.any
      (fun domain => jsIncludes parts.hostname domain) = false)
    (hallowed : (cfg.allowedDomains.length > 0 &&
      !(cfg.allowedDomains.any
        (fun domain => jsIncludes parts.hostname domain))) = false)
    (rewritten : String) (frontPick : Nat)
    (hrw : rewriteUrl cfg frontPick u = .ok rewritten)
    (response : FetchResponse) (bytes : List Nat)
    (hbody : response.body = some bytes)
    (hlen : bytes.length < cfg.maxContentLength)
    (tc : String)
    (htc : transformContent cfg (textDecodeLossy bytes)
      ((headersGet response.headers "content-type").getD "text/plain") = .ok tc)
    (hcacheable : isCacheableResponse response = true)
    (uaPick ipA ipB now : Nat) :
    (handlePost (.ok (.objectValue cfg)) (.ok body) (.ok response)
        frontPick uaPick ipA ipB now).cacheInserts =
      [⟨cacheKey u now, tc,
        (headersGet response.headers "content-type").getD "text/plain",
        response.status, response.statusText,
        buildResponseHeaders response.headers, now + cfg.cacheTTL⟩] ∧
    (∀ t1 t2 : Nat, t1 ≠ t2 → cacheKey u t1 ≠ cacheKey u t2) := by
  constructor
  · have hmain : handlePost (.ok (.objectValue cfg)) (.ok body) (.ok response)
        frontPick uaPick ipA ipB now =
        handlePostAfterBody cfg u
          ⟨rewritten, body.method, sanitizeHeaders uaPick ipA ipB body.headers,
            body.body⟩ response
          ((headersGet response.headers "content-type").getD "text/plain")
          (textDecodeLossy bytes) now := by
      simp only [handlePost, henabled, Bool.not_true, Bool.false_eq_true, if_neg,
        urlFalsy, hurl, hne, hparse, hblocked, hallowed, Option.getD_some, hrw,
        hbody, hlen, if_true, if_false]
    rw [hmain]
    unfold handlePostAfterBody
    rw [htc]
    simp [hcacheable]
  · intro t1 t2 hnet hkey
    exact hnet (cacheKey_injective_in_time u hkey)

/-- Witness for C7 at a concrete cacheable success: the single inserted row
carries the original-URL/timestamp key and the `now + cacheTTL` expiry. -/
theorem cache_insert_key_spec_witness :
    (handlePost (.ok (.objectValue DEFAULT_CONFIG))
        (.ok { url := some "https://example.com/" })
        (.ok { status := 200, statusText := "OK",
               headers := [("content-type", "text/html")],
               body := some [104, 105] }) 0 0 0 0 1700000000000).cacheInserts =
      [⟨"proxy:https://example.com/:1700000000000", "hi", "text/html", 200, "OK",
        [("content-type", "text/html"), ("x-proxied-by", "edgeflow"),
         ("x-cache-status", "MISS")], 1700000000000 + 3600⟩] ∧
    cacheKey "https://example.com/" 1700000000000 ≠
      cacheKey "https://example.com/" 1700000000001 := by
  have h := cache_insert_key_spec DEFAULT_CONFIG rfl
    { url := some "https://example.com/" } "https://example.com/" rfl rfl
    { hostname := "example.com" } (by decide) (by decide) (by decide)
    "https://example.com/" 0 (by decide)
    { status := 200, statusText := "OK",
      headers := [("content-type", "text/html")], body := some [104, 105] }
    [104, 105] rfl (by decide) "hi" (by decide) (by decide) 0 0 0 1700000000000
  refine ⟨?_, h.2 1700000000000 1700000000001 (by decide)⟩
  rw [h.1]
  decide

/-- The randomized user agent is always drawn from the fixed pool. -/
theorem generateRandomUserAgent_mem (pick : Nat) :
    generateRandomUserAgent pick ∈ userAgents := by
  unfold generateRandomUserAgent
  have h3 : pick % userAgents.length < userAgents.length := by
    apply Nat.mod_lt
    decide
  rw [List.getD_eq_getElem _ _ h3]
  exact List.getElem_mem h3

/-- C6: for every header map whose keys are in case-insensitive normal form
(lowercase) and distinct, `sanitizeHeaders` yields a map with no cookie,
referer, or origin header (case-insensitively), a `user-agent` drawn from
the fixed three-element pool, an injected `x-forwarded-for` and an
`x-proxy-engine` header, and every other input header passed through
unchanged. -/
theorem sanitizeHeaders_spec
    (headers : JSRecord)
    (hlower : ∀ p ∈ headers, asciiLower p.1 = p.1)
    (hnodup : (headers.map Prod.fst).Nodup)
    (uaPick ipA ipB : Nat) :
    (∀ p ∈ sanitizeHeaders uaPick ipA ipB headers,
      asciiLower p.1 ≠ "cookie" ∧ asciiLower p.1 ≠ "referer" ∧
        asciiLower p.1 ≠ "origin") ∧
    (∃ ua, ua ∈ userAgents ∧
      recGet (sanitizeHeaders uaPick ipA ipB headers) "user-agent" = some ua) ∧
    userAgents.length = 3 ∧
    recGet (sanitizeHeaders uaPick ipA ipB headers) "x-forwarded-for" =
      some (generateRandomIP ipA ipB) ∧
    recGet (sanitizeHeaders uaPick ipA ipB headers) "x-proxy-engine" =
      some "edgeflow-scramjet" ∧
    (∀ p ∈ headers,
      p.1 ∉ ["cookie", "referer", "origin", "user-agent", "x-forwarded-for",
        "x-proxy-engine"] →
      recGet (sanitizeHeaders uaPick ipA ipB headers) p.1 = some p.2) := by
  unfold sanitizeHeaders
  refine ⟨?_, ?_, rfl, ?_, ?_, ?_⟩
  · intro p hp
    rcases mem_recSet hp with rfl | hp2
    · exact ⟨by decide, by decide, by decide⟩
    rcases mem_recSet hp2 with rfl | hp3
    · exact ⟨(by decide : asciiLower "x-forwarded-for" ≠ "cookie"),
        (by decide : asciiLower "x-forwarded-for" ≠ "referer"),
        (by decide : asciiLower "x-forwarded-for" ≠ "origin")⟩
    rcases mem_recSet hp3 with rfl | hp4
    · exact ⟨(by decide : asciiLower "user-agent" ≠ "cookie"),
        (by decide : asciiLower "user-agent" ≠ "referer"),
        (by decide : asciiLower "user-agent" ≠ "origin")⟩
    simp only [recDelete, List.mem_filter] at hp4
    obtain ⟨⟨⟨pmem, hc1⟩, hc2⟩, hc3⟩ := hp4
    rw [hlower p pmem]
    refine ⟨?_, ?_, ?_⟩
    · simpa using hc1
    · simpa using hc2
    · simpa using hc3
  · refine ⟨generateRandomUserAgent uaPick, generateRandomUserAgent_mem uaPick, ?_⟩
    rw [recGet_recSet_ne _ _ _ _ (by decide), recGet_recSet_ne _ _ _ _ (by decide),
      recGet_recSet_self]
  · rw [recGet_recSet_ne _ _ _ _ (by decide), recGet_recSet_self]
  · rw [recGet_recSet_self]
  · intro p pmem hnotin
    simp only [List.mem_cons, List.not_mem_nil, or_false, not_or] at hnotin
    obtain ⟨h1, h2, h3, h4, h5, h6⟩ := hnotin
    rw [recGet_recSet_ne _ _ _ _ h6, recGet_recSet_ne _ _ _ _ h5,
      recGet_recSet_ne _ _ _ _ h4]
    have hsub : ((recDelete (recDelete (recDelete headers "cookie") "referer")
        "origin").map Prod.fst).Nodup := by
      apply List.Nodup.sublist _ hnodup
      apply List.Sublist.map
      exact ((List.filter_sublist _).trans
        ((List.filter_sublist _).trans (List.filter_sublist _)))
    have hmemD : (p.1, p.2) ∈
        recDelete (recDelete (recDelete headers "cookie") "referer") "origin" := by
      unfold recDelete
      refine List.mem_filter.mpr ⟨List.mem_filter.mpr
        ⟨List.mem_filter.mpr ⟨?_, ?_⟩, ?_⟩, ?_⟩
      · simpa using pmem
      · simpa using h1
      · simpa using h2
      · simpa using h3
    exact recGet_of_mem_nodup hsub hmemD

/-- Witness for C6 at a concrete header map carrying an identifying cookie
and an innocuous accept header. -/
theorem sanitizeHeaders_spec_witness :
    recGet (sanitizeHeaders 1 2 3 [("cookie", "secret"), ("accept", "text/html")])
        "x-proxy-engine" = some "edgeflow-scramjet" ∧
    recGet (sanitizeHeaders 1 2 3 [("cookie", "secret"), ("accept", "text/html")])
        "accept" = some "text/html" :=
  ⟨(sanitizeHeaders_spec [("cookie", "secret"), ("accept", "text/html")]
      (by decide) (by decide) 1 2 3).2.2.2.2.1,
    (sanitizeHeaders_spec [("cookie", "secret"), ("accept", "text/html")]
      (by decide) (by decide) 1 2 3).2.2.2.2.2 ("accept", "text/html")
      (by decide) (by decide)⟩

end EdgeFlow
